import Mathlib

/-!
Shallow embedding of `notebooks/annotation_coverage.ipynb` (goatools).

The notebook's reusable computation is the `cov_data` loop (cell 22):
for each organism it intersects the keys of the per-organism gene-to-GO
mapping with the protein-coding gene set, accumulates the union of GO
term sets over that intersection with a `|=` loop, and builds an
`NtCov` namedtuple containing `100.0*num_pcgene_w_gos/num_pc_genes`.
Cell 20 gathers per-organism mappings in
`taxid2asscs = defaultdict(lambda: defaultdict(lambda: defaultdict(set)))`,
accessed as `taxid2asscs[taxid]` followed by an access at the string key
for the GeneID-to-GOs direction.  Cell 23 renders each record with the
Python format string whose conversions are: TAXID right-aligned width 6;
N comma-grouped right-aligned width 6; M comma-grouped right-aligned
width 7; COV as a fixed-point float with zero decimals and width 2;
then a percent sign, the words `GO coverage of`, the comma-grouped
total and `protein-coding genes`.

Genes are modelled as naturals, GO terms as strings, Python sets as
`Finset`, and a Python dict as a finite key set with a lookup function.
Python's true division by zero raises `ZeroDivisionError`; the floats
that arise here are modelled as rationals.
-/

/-- A Python dict from GeneID to a set of GO term IDs: its key set and
its lookup function (meaningful on the keys). -/
structure AnnotMap where
  keys : Finset ℕ
  get : ℕ → Finset String

/-- The empty dict, also what `defaultdict(set)` starts as. -/
def pyEmpty : AnnotMap := ⟨∅, fun _ => ∅⟩

/-- Binding a gene to a term set in a dict: extend the key set and
override the lookup at `g`. -/
def pyInsert (d : AnnotMap) (g : ℕ) (ts : Finset String) : AnnotMap :=
  ⟨insert g d.keys, fun x => if x = g then ts else d.get x⟩

/-- Errors a Python expression of the notebook could raise.
`inputError` is the guarded precondition-violation kind described by
the spec's error taxonomy; the notebook itself never raises it. -/
inductive PyErr where
  | zeroDivisionError
  | inputError
  deriving DecidableEq

/-- Python 2 true division as in `100.0*num_pcgene_w_gos/num_pc_genes`:
raises `ZeroDivisionError` when the divisor is zero, otherwise yields
the quotient. -/
def pyDivF (a b : ℚ) : Except PyErr ℚ :=
  if b = 0 then .error .zeroDivisionError else .ok (a / b)

/-- The namedtuple `NtCov(taxid, num_GOs, num_covgenes, coverage,
num_allgenes)` of the notebook. -/
structure NtCov where
  taxid : ℕ
  num_GOs : ℕ
  num_covgenes : ℕ
  coverage : ℚ
  num_allgenes : ℕ
  deriving DecidableEq

/-- `pcgene_w_gos = set(geneid2gos.keys()).intersection(set(pcGeneID2nt.keys()))`. -/
def pcgene_w_gos (m : AnnotMap) (pc : Finset ℕ) : Finset ℕ :=
  m.keys ∩ pc

/-- The elements of a finite set of genes as a list: one concrete
iteration order for Python's unordered set iteration (the loop's result
is proved independent of the order). -/
def setIter (s : Finset ℕ) : List ℕ := s.sort (· ≤ ·)

/-- The `gos_pcgenes` accumulation loop: start from `set()` and run
`gos_pcgenes |= geneid2gos[geneid]` over the covered genes. -/
def gos_pcgenes (m : AnnotMap) (pc : Finset ℕ) : Finset String :=
  (setIter (pcgene_w_gos m pc)).foldl (fun acc g => acc ∪ m.get g) ∅

/-- One iteration of the notebook's `cov_data` loop: build the `NtCov`
record for one organism, or fail exactly as Python would on the
division. -/
def compute (org : ℕ) (m : AnnotMap) (pc : Finset ℕ) : Except PyErr NtCov :=
  let cov := pcgene_w_gos m pc
  let num_pcgene_w_gos := cov.card
  let num_pc_genes := pc.card
  let gos := gos_pcgenes m pc
  match pyDivF (100 * num_pcgene_w_gos) num_pc_genes with
  | .error e => .error e
  | .ok c => .ok ⟨org, gos.card, num_pcgene_w_gos, c, num_pc_genes⟩

/-- The annotation map of the spec's concrete scenario: gene 1 carries
terms A and B, gene 2 carries A, gene 5 carries C. -/
def sampleMap : AnnotMap :=
  ⟨{1, 2, 5}, fun g =>
    if g = 1 then {"GO:A", "GO:B"}
    else if g = 2 then {"GO:A"}
    else if g = 5 then {"GO:C"}
    else ∅⟩

/-! ### The report formatter (cell 23) -/

/-- Insert a comma after every third character of a reversed digit
list: the core of Python's comma-grouping number conversion. -/
def cg3 : List Char → List Char
  | a :: b :: c :: d :: rest => a :: b :: c :: ',' :: cg3 (d :: rest)
  | l => l

/-- Python's comma-grouped rendering of a natural number. -/
def commaGroup (n : ℕ) : String :=
  ⟨(cg3 (toString n).data.reverse).reverse⟩

/-- Right-justify a string to width `w` with spaces, as Python's
right-align conversion does. -/
def rjust (w : ℕ) (s : String) : String :=
  ⟨List.replicate (w - s.length) ' '⟩ ++ s

/-- Round a rational to the nearest integer, ties to even: the rounding
of Python's fixed-point float conversion with zero decimals. -/
def rndHalfEven (q : ℚ) : ℤ :=
  let f := ⌊q⌋
  let r := q - f
  if r < 1 / 2 then f
  else if 1 / 2 < r then f + 1
  else if 2 ∣ f then f else f + 1

/-- Python's fixed-point conversion of the coverage float, zero decimal
places, minimum width 2. -/
def fmtF0 (q : ℚ) : String :=
  rjust 2 (toString (rndHalfEven q))

/-- One data row of the report: the notebook's `fmtstr.format(...)`. -/
def fmtRow (nt : NtCov) : String :=
  rjust 6 (toString nt.taxid) ++ " " ++ rjust 6 (commaGroup nt.num_GOs) ++ " " ++
    rjust 7 (commaGroup nt.num_covgenes) ++ "  " ++ fmtF0 nt.coverage ++
    "% GO coverage of " ++ commaGroup nt.num_allgenes ++ " protein-coding genes"

/-- First header line printed by cell 23. -/
def hdrLine1 : String := " taxid    GOs GeneIDs Coverage"

/-- Second header line printed by cell 23. -/
def hdrLine2 : String := "------ ------ ------- ----------------------"

/-- The report loop: print the two headers, then one formatted row per
record of `cov_data`, modelling stdout as the list of printed lines. -/
def reportLines (cov_data : List NtCov) : List String :=
  cov_data.foldl (fun out nt => out ++ [fmtRow nt]) [hdrLine1, hdrLine2]

/-! ### The bulk-load association store (cell 20) -/

/-- The string key of the GeneID-to-GOs direction inside the per-taxid
inner mapping of `taxid2asscs`. -/
def geneID2GOsKey : String := "GeneID2GOs"

/-- The per-taxid inner mapping: association-direction name to
gene-to-terms dict. -/
abbrev InnerAsscs : Type := List (String × AnnotMap)

/-- `taxid2asscs`: the bulk-loaded store, taxid to inner mapping. -/
abbrev Store : Type := List (ℕ × InnerAsscs)

/-- Access on the inner `defaultdict`: a present key returns its value
and leaves the mapping alone; a missing key materialises an empty
`defaultdict(set)` and inserts it. -/
def ddInnerGet (inner : InnerAsscs) (k : String) : AnnotMap × InnerAsscs :=
  match List.lookup k inner with
  | some v => (v, inner)
  | none => (pyEmpty, inner ++ [(k, pyEmpty)])

/-- Replace the inner mapping bound to taxid `t` in the store. -/
def storeSet (s : Store) (t : ℕ) (v : InnerAsscs) : Store :=
  List.map (fun p => if p.1 = t then (t, v) else p) s

/-- The access `taxid2asscs[taxid]` followed by the access at the
GeneID-to-GOs key: both levels are `defaultdict`s, so a missing taxid
materialises an empty inner mapping, and the missing direction key then
materialises an empty gene-to-terms dict; every default is written back
into the shared store. -/
def ddOuterGetAsscs (s : Store) (t : ℕ) : AnnotMap × Store :=
  match List.lookup t s with
  | some inner =>
      let mi := ddInnerGet inner geneID2GOsKey
      (mi.1, storeSet s t mi.2)
  | none =>
      let mi := ddInnerGet ([] : InnerAsscs) geneID2GOsKey
      (mi.1, s ++ [(t, mi.2)])

/-! ### State-threaded transliteration of the `cov_data` loop body -/

/-- Reading a dict's key set: `geneid2gos.keys()` returns a view and
leaves the dict as it was. -/
def dictKeys (d : AnnotMap) : Finset ℕ × AnnotMap := (d.keys, d)

/-- Reading one entry: `geneid2gos[geneid]` on a present key leaves the
dict as it was. -/
def dictGetItem (d : AnnotMap) (g : ℕ) : Finset String × AnnotMap := (d.get g, d)

/-- `set(pcGeneID2nt.keys())`: a fresh copy, the source set untouched. -/
def setCopy (s : Finset ℕ) : Finset ℕ × Finset ℕ := (s, s)

/-- `len(pcGeneID2nt)`: reads the size, the set untouched. -/
def setLen (s : Finset ℕ) : ℕ × Finset ℕ := (s.card, s)

/-- The `cov_data` loop body with every access to the two inputs
threaded explicitly, returning the result together with the final
states of `geneid2gos` and of the protein-coding set. -/
def computeSt (org : ℕ) (m : AnnotMap) (pc : Finset ℕ) :
    Except PyErr NtCov × AnnotMap × Finset ℕ :=
  let km := dictKeys m
  let cp := setCopy pc
  let cov := km.1 ∩ cp.1
  let num_pcgene_w_gos := cov.card
  let np := setLen cp.2
  let st := (setIter cov).foldl
      (fun acc g =>
        let vd := dictGetItem acc.2 g
        (acc.1 ∪ vd.1, vd.2)) ((∅ : Finset String), km.2)
  match pyDivF (100 * num_pcgene_w_gos) np.1 with
  | .error e => (.error e, st.2, np.2)
  | .ok c => (.ok ⟨org, st.1.card, num_pcgene_w_gos, c, np.1⟩, st.2, np.2)

/-! ### Helper lemmas -/

/-- Membership in the union-accumulating fold. -/
theorem mem_foldl_union (f : ℕ → Finset String) :
    ∀ (l : List ℕ) (init : Finset String) (x : String),
      (x ∈ l.foldl (fun acc g => acc ∪ f g) init ↔
        x ∈ init ∨ ∃ g ∈ l, x ∈ f g) := by
  intro l
  induction l with
  | nil => intro init x; simp
  | cons a t ih =>
      intro init x
      simp only [List.foldl_cons, ih, Finset.mem_union, List.mem_cons]
      constructor
      · rintro (⟨h | h⟩ | ⟨g, hg, hx⟩)
        · exact Or.inl h
        · exact Or.inr ⟨a, Or.inl rfl, h⟩
        · exact Or.inr ⟨g, Or.inr hg, hx⟩
      · rintro (h | ⟨g, (rfl | hg), hx⟩)
        · exact Or.inl (Or.inl h)
        · exact Or.inl (Or.inr hx)
        · exact Or.inr ⟨g, hg, hx⟩

/-- The accumulation loop computes the union of the term sets over the
covered genes, whatever the iteration order. -/
theorem gos_pcgenes_eq_biUnion (m : AnnotMap) (pc : Finset ℕ) :
    gos_pcgenes m pc = (pcgene_w_gos m pc).biUnion m.get := by
  apply Finset.ext
  intro x
  rw [gos_pcgenes, mem_foldl_union]
  simp [Finset.mem_biUnion, setIter, Finset.mem_sort]

/-- Characterisation of `compute` on a non-empty protein-coding set. -/
theorem compute_eq_ok (org : ℕ) (m : AnnotMap) (pc : Finset ℕ)
    (h : pc.Nonempty) :
    compute org m pc =
      .ok ⟨org, ((m.keys ∩ pc).biUnion m.get).card, (m.keys ∩ pc).card,
        100 * ((m.keys ∩ pc).card : ℚ) / pc.card, pc.card⟩ := by
  have hc : (pc.card : ℚ) ≠ 0 := by
    exact_mod_cast Finset.card_ne_zero.mpr h
  rw [compute, pyDivF]
  simp only [hc, if_false]
  rw [gos_pcgenes_eq_biUnion]
  rfl

/-! ### Claim theorems -/

/-- C1: on a non-empty protein-coding set, `compute` returns a record
whose covered-gene count is the size of the intersection of the
annotation map's keys with the protein-coding set, whose total is the
size of the protein-coding set, whose coverage is
`100 * num_covered / num_total`, and whose taxid is the organism
argument. -/
theorem C1_compute_core_fields (org : ℕ) (m : AnnotMap) (pc : Finset ℕ)
    (h : pc.Nonempty) :
    ∃ r : NtCov, compute org m pc = .ok r ∧
      r.num_covgenes = (m.keys ∩ pc).card ∧
      r.num_allgenes = pc.card ∧
      r.coverage = 100 * ((m.keys ∩ pc).card : ℚ) / pc.card ∧
      r.taxid = org :=
  ⟨_, compute_eq_ok org m pc h, rfl, rfl, rfl, rfl⟩

/-- Witness for C1 at the spec's concrete scenario. -/
theorem C1_witness :
    ∃ r : NtCov, compute 9606 sampleMap {1, 2, 3, 4} = .ok r ∧
      r.num_covgenes = (sampleMap.keys ∩ {1, 2, 3, 4}).card ∧
      r.num_allgenes = ({1, 2, 3, 4} : Finset ℕ).card ∧
      r.coverage = 100 * ((sampleMap.keys ∩ {1, 2, 3, 4}).card : ℚ) /
        ({1, 2, 3, 4} : Finset ℕ).card ∧
      r.taxid = 9606 :=
  C1_compute_core_fields 9606 sampleMap {1, 2, 3, 4} (by decide)

/-- C2: the term count of the record is the cardinality of the union of
term sets over exactly the genes that are both annotated and
protein-coding. -/
theorem C2_num_terms_union (org : ℕ) (m : AnnotMap) (pc : Finset ℕ)
    (h : pc.Nonempty) :
    ∃ r : NtCov, compute org m pc = .ok r ∧
      r.num_GOs = ((m.keys ∩ pc).biUnion m.get).card :=
  ⟨_, compute_eq_ok org m pc h, rfl⟩

/-- Witness for C2 at the spec's concrete scenario. -/
theorem C2_witness :
    ∃ r : NtCov, compute 9606 sampleMap {1, 2, 3, 4} = .ok r ∧
      r.num_GOs = ((sampleMap.keys ∩ {1, 2, 3, 4}).biUnion sampleMap.get).card :=
  C2_num_terms_union 9606 sampleMap {1, 2, 3, 4} (by decide)

/-- C3 counterexample: on an empty protein-coding set the loop body
fails with the implicit arithmetic `ZeroDivisionError` coming out of
the division, not with a guarded `InputError`. -/
theorem C3_counterexample :
    compute 9606 pyEmpty ∅ = .error PyErr.zeroDivisionError ∧
      PyErr.zeroDivisionError ≠ PyErr.inputError :=
  ⟨rfl, by decide⟩

/-- C3 (amended): on an empty protein-coding set, `compute` fails — the
unguarded division propagates a `ZeroDivisionError` — and no record is
produced. -/
theorem C3_empty_pc_fails (org : ℕ) (m : AnnotMap) :
    compute org m ∅ = .error PyErr.zeroDivisionError := rfl

/-- C7: the spec's concrete scenario: protein-coding genes 1..4 and the
sample annotation map yield 2 covered genes, 2 distinct terms, 50
percent coverage of 4 genes. -/
theorem C7_concrete_scenario :
    compute 9606 sampleMap {1, 2, 3, 4} = .ok ⟨9606, 2, 2, 50, 4⟩ := by
  rw [compute_eq_ok 9606 sampleMap {1, 2, 3, 4} (by decide)]
  have h1 : ((sampleMap.keys ∩ ({1, 2, 3, 4} : Finset ℕ)).biUnion sampleMap.get).card = 2 := by
    decide
  have h2 : (sampleMap.keys ∩ ({1, 2, 3, 4} : Finset ℕ)).card = 2 := by decide
  have h3 : ({1, 2, 3, 4} : Finset ℕ).card = 4 := by decide
  rw [h1, h2, h3]
  norm_num

/-- C4: on a non-empty protein-coding set the coverage is between 0 and
100, the covered count never exceeds the total, and they are equal
exactly when every protein-coding gene is a key of the annotation
map. -/
theorem C4_coverage_bounds (org : ℕ) (m : AnnotMap) (pc : Finset ℕ)
    (h : pc.Nonempty) :
    ∃ r : NtCov, compute org m pc = .ok r ∧
      0 ≤ r.coverage ∧ r.coverage ≤ 100 ∧
      r.num_covgenes ≤ r.num_allgenes ∧
      (r.num_covgenes = r.num_allgenes ↔ pc ⊆ m.keys) := by
  have hn : (0 : ℚ) < pc.card := by
    exact_mod_cast Finset.card_pos.mpr h
  have hcn : (m.keys ∩ pc).card ≤ pc.card :=
    Finset.card_le_card Finset.inter_subset_right
  refine ⟨_, compute_eq_ok org m pc h, ?_, ?_, hcn, ?_⟩
  · show 0 ≤ 100 * ((m.keys ∩ pc).card : ℚ) / pc.card
    positivity
  · show 100 * ((m.keys ∩ pc).card : ℚ) / pc.card ≤ 100
    rw [div_le_iff₀ hn]
    have hq : ((m.keys ∩ pc).card : ℚ) ≤ pc.card := by exact_mod_cast hcn
    nlinarith
  · show (m.keys ∩ pc).card = pc.card ↔ pc ⊆ m.keys
    constructor
    · intro hEq
      have heq : m.keys ∩ pc = pc :=
        Finset.eq_of_subset_of_card_le Finset.inter_subset_right (le_of_eq hEq.symm)
      exact Finset.inter_eq_right.mp heq
    · intro hsub
      rw [Finset.inter_eq_right.mpr hsub]

/-- Witness for C4 at the spec's concrete scenario. -/
theorem C4_witness :
    ∃ r : NtCov, compute 9606 sampleMap {1, 2, 3, 4} = .ok r ∧
      0 ≤ r.coverage ∧ r.coverage ≤ 100 ∧
      r.num_covgenes ≤ r.num_allgenes ∧
      (r.num_covgenes = r.num_allgenes ↔ ({1, 2, 3, 4} : Finset ℕ) ⊆ sampleMap.keys) :=
  C4_coverage_bounds 9606 sampleMap {1, 2, 3, 4} (by decide)

/-- C5: adding a fresh annotated protein-coding gene to the annotation
map never decreases the covered count, the term count, or the
coverage. -/
theorem C5_monotone (org : ℕ) (m : AnnotMap) (pc : Finset ℕ) (g : ℕ)
    (ts : Finset String) (hpc : pc.Nonempty) (hg : g ∈ pc)
    (hk : g ∉ m.keys) (_hts : ts.Nonempty) :
    ∃ r r' : NtCov, compute org m pc = .ok r ∧
      compute org (pyInsert m g ts) pc = .ok r' ∧
      r.num_covgenes ≤ r'.num_covgenes ∧
      r.num_GOs ≤ r'.num_GOs ∧
      r.coverage ≤ r'.coverage := by
  have hcov : (pyInsert m g ts).keys ∩ pc = insert g (m.keys ∩ pc) := by
    show insert g m.keys ∩ pc = insert g (m.keys ∩ pc)
    exact Finset.insert_inter_of_mem hg
  have hgnotin : g ∉ m.keys ∩ pc := fun hx => hk (Finset.mem_inter.mp hx).1
  have hcard : (m.keys ∩ pc).card ≤ ((pyInsert m g ts).keys ∩ pc).card := by
    rw [hcov]
    exact Finset.card_le_card (Finset.subset_insert g _)
  have hbi : ((pyInsert m g ts).keys ∩ pc).biUnion (pyInsert m g ts).get =
      ts ∪ (m.keys ∩ pc).biUnion m.get := by
    rw [hcov, Finset.biUnion_insert]
    have hgg : (pyInsert m g ts).get g = ts := by simp [pyInsert]
    rw [hgg]
    congr 1
    apply Finset.biUnion_congr rfl
    intro x hx
    have hxg : x ≠ g := fun e => hgnotin (e ▸ hx)
    simp [pyInsert, hxg]
  refine ⟨_, _, compute_eq_ok org m pc hpc,
    compute_eq_ok org (pyInsert m g ts) pc hpc, hcard, ?_, ?_⟩
  · show ((m.keys ∩ pc).biUnion m.get).card ≤
      (((pyInsert m g ts).keys ∩ pc).biUnion (pyInsert m g ts).get).card
    rw [hbi]
    exact Finset.card_le_card Finset.subset_union_right
  · show 100 * ((m.keys ∩ pc).card : ℚ) / pc.card ≤
      100 * (((pyInsert m g ts).keys ∩ pc).card : ℚ) / pc.card
    have hq : ((m.keys ∩ pc).card : ℚ) ≤ ((pyInsert m g ts).keys ∩ pc).card := by
      exact_mod_cast hcard
    gcongr

/-- Witness for C5: add gene 3 with one term to the sample map. -/
theorem C5_witness :
    ∃ r r' : NtCov, compute 9606 sampleMap {1, 2, 3, 4} = .ok r ∧
      compute 9606 (pyInsert sampleMap 3 {"GO:D"}) {1, 2, 3, 4} = .ok r' ∧
      r.num_covgenes ≤ r'.num_covgenes ∧
      r.num_GOs ≤ r'.num_GOs ∧
      r.coverage ≤ r'.coverage :=
  C5_monotone 9606 sampleMap {1, 2, 3, 4} 3 {"GO:D"}
    (by decide) (by decide) (by decide) (by decide)

/-- C6: a gene outside the protein-coding set, even when annotated,
changes neither the covered count nor the term count; it is silently
excluded, no error arises. -/
theorem C6_exclusion (org : ℕ) (m : AnnotMap) (pc : Finset ℕ) (g : ℕ)
    (ts : Finset String) (hpc : pc.Nonempty) (hg : g ∉ pc) :
    ∃ r r' : NtCov, compute org (pyInsert m g ts) pc = .ok r' ∧
      compute org m pc = .ok r ∧
      r'.num_covgenes = r.num_covgenes ∧
      r'.num_GOs = r.num_GOs := by
  have hcov : (pyInsert m g ts).keys ∩ pc = m.keys ∩ pc := by
    show insert g m.keys ∩ pc = m.keys ∩ pc
    exact Finset.insert_inter_of_not_mem hg
  have hbi : ((pyInsert m g ts).keys ∩ pc).biUnion (pyInsert m g ts).get =
      (m.keys ∩ pc).biUnion m.get := by
    rw [hcov]
    apply Finset.biUnion_congr rfl
    intro x hx
    have hxg : x ≠ g := fun e => hg (e ▸ (Finset.mem_inter.mp hx).2)
    simp [pyInsert, hxg]
  refine ⟨_, _, compute_eq_ok org (pyInsert m g ts) pc hpc,
    compute_eq_ok org m pc hpc, ?_, ?_⟩
  · show ((pyInsert m g ts).keys ∩ pc).card = (m.keys ∩ pc).card
    rw [hcov]
  · show (((pyInsert m g ts).keys ∩ pc).biUnion (pyInsert m g ts).get).card =
      ((m.keys ∩ pc).biUnion m.get).card
    rw [hbi]

/-- Witness for C6: the spec scenario's gene 5 is annotated but not
protein-coding; adding gene 7 likewise changes nothing. -/
theorem C6_witness :
    ∃ r r' : NtCov,
      compute 9606 (pyInsert sampleMap 7 {"GO:E"}) {1, 2, 3, 4} = .ok r' ∧
      compute 9606 sampleMap {1, 2, 3, 4} = .ok r ∧
      r'.num_covgenes = r.num_covgenes ∧
      r'.num_GOs = r.num_GOs :=
  C6_exclusion 9606 sampleMap {1, 2, 3, 4} 7 {"GO:E"} (by decide) (by decide)

/-- Appending one formatted line per element: the print loop in list
form. -/
theorem foldl_append_map (f : NtCov → String) :
    ∀ (l : List NtCov) (init : List String),
      l.foldl (fun out nt => out ++ [f nt]) init = init ++ l.map f := by
  intro l
  induction l with
  | nil => intro init; simp
  | cons x t ih =>
      intro init
      simp only [List.foldl_cons, List.map_cons, ih, List.append_assoc,
        List.singleton_append]

/-- C8 (amended): the report is the two header lines followed by one
row per record, in input order, each row produced by the notebook's
format string (right-aligned taxid, comma-grouped counts, zero-decimal
percentage, and the words `GO coverage of ... protein-coding genes`,
with no `terms=` or `covered=` labels). -/
theorem C8_report_shape (recs : List NtCov) :
    reportLines recs = hdrLine1 :: hdrLine2 :: recs.map fmtRow := by
  rw [reportLines, foldl_append_map]
  rfl

/-- C8 counterexample: the row emitted for the record
`(9606, 16436, 18273, 87, 20913)` is the notebook's
`GO coverage` phrasing; it is not the claimed
`terms=... covered=... coverage of ...` form — it contains no equals
sign at all, while any row of the claimed form contains one. -/
theorem C8_counterexample :
    reportLines [⟨9606, 16436, 18273, 87, 20913⟩] =
      [hdrLine1, hdrLine2,
        "  9606 16,436  18,273  87% GO coverage of 20,913 protein-coding genes"] ∧
      ("  9606 16,436  18,273  87% GO coverage of 20,913 protein-coding genes" : String) ≠
        "9606 terms=16,436 covered=18,273 87% coverage of 20,913 protein-coding genes" ∧
      '=' ∉ ("  9606 16,436  18,273  87% GO coverage of 20,913 protein-coding genes" : String).data ∧
      '=' ∈ ("9606 terms=16,436 covered=18,273 87% coverage of 20,913 protein-coding genes" : String).data := by
  have h87 : rndHalfEven ((87 : ℚ)) = 87 := by norm_num [rndHalfEven]
  refine ⟨?_, by decide, by decide, by decide⟩
  simp only [reportLines, List.foldl_cons, List.foldl_nil, fmtRow, fmtF0, h87]
  decide

/-- C9: accessing the bulk store at a taxid it does not hold raises
nothing: it hands back an empty gene-to-terms map, writes a fresh empty
entry for that taxid into the shared store, and the coverage
computation on that empty map yields a record with zero terms, zero
covered genes and zero coverage. -/
theorem C9_missing_taxid_defaults (org t : ℕ) (s : Store) (pc : Finset ℕ)
    (hs : List.lookup t s = none) (hpc : pc.Nonempty) :
    (ddOuterGetAsscs s t).1 = pyEmpty ∧
      (ddOuterGetAsscs s t).2 = s ++ [(t, [(geneID2GOsKey, pyEmpty)])] ∧
      compute org (ddOuterGetAsscs s t).1 pc = .ok ⟨org, 0, 0, 0, pc.card⟩ := by
  have h1 : ddOuterGetAsscs s t = (pyEmpty, s ++ [(t, [(geneID2GOsKey, pyEmpty)])]) := by
    rw [ddOuterGetAsscs, hs]
    rfl
  refine ⟨by rw [h1], by rw [h1], ?_⟩
  rw [h1]
  rw [compute_eq_ok org pyEmpty pc hpc]
  simp [pyEmpty]

/-- Witness for C9: taxid 7227 absent from an empty store, two
protein-coding genes. -/
theorem C9_witness :
    (ddOuterGetAsscs [] 7227).1 = pyEmpty ∧
      (ddOuterGetAsscs [] 7227).2 = [] ++ [(7227, [(geneID2GOsKey, pyEmpty)])] ∧
      compute 7227 (ddOuterGetAsscs [] 7227).1 {1, 2} =
        .ok ⟨7227, 0, 0, 0, ({1, 2} : Finset ℕ).card⟩ :=
  C9_missing_taxid_defaults 7227 7227 [] {1, 2} rfl (by decide)

/-- Threading the dict through the accumulation loop: every read leaves
it as it was, and the accumulated set is the pure fold. -/
theorem foldl_thread_state (d : AnnotMap) :
    ∀ (l : List ℕ) (a : Finset String),
      l.foldl (fun acc g =>
        let vd := dictGetItem acc.2 g
        (acc.1 ∪ vd.1, vd.2)) (a, d) =
        (l.foldl (fun x g => x ∪ d.get g) a, d) := by
  intro l
  induction l with
  | nil => intro a; rfl
  | cons x t ih =>
      intro a
      simp only [List.foldl_cons, dictGetItem]
      exact ih _

/-- C10: the loop body, with every access to its two inputs threaded
explicitly, returns the annotation map and the protein-coding set
exactly as they were and computes the same result as the pure
function: the computation builds fresh sets and mutates neither
input. -/
theorem C10_inputs_unchanged (org : ℕ) (m : AnnotMap) (pc : Finset ℕ)
    (_hpc : pc.Nonempty) :
    (computeSt org m pc).2.1 = m ∧
      (computeSt org m pc).2.2 = pc ∧
      (computeSt org m pc).1 = compute org m pc := by
  simp only [computeSt, dictKeys, setCopy, setLen, foldl_thread_state,
    compute, pcgene_w_gos, gos_pcgenes]
  cases pyDivF (100 * (m.keys ∩ pc).card) (pc.card : ℚ) with
  | error e => exact ⟨rfl, rfl, rfl⟩
  | ok c => exact ⟨rfl, rfl, rfl⟩

/-- Witness for C10 at the spec's concrete scenario. -/
theorem C10_witness :
    (computeSt 9606 sampleMap {1, 2, 3, 4}).2.1 = sampleMap ∧
      (computeSt 9606 sampleMap {1, 2, 3, 4}).2.2 = ({1, 2, 3, 4} : Finset ℕ) ∧
      (computeSt 9606 sampleMap {1, 2, 3, 4}).1 =
        compute 9606 sampleMap {1, 2, 3, 4} :=
  C10_inputs_unchanged 9606 sampleMap {1, 2, 3, 4} (by decide)
